import Mathlib

/-!
Verification of the reliable message delivery subsystem
(`src/messaging/reliable_sender.py` and the `CircuitBreaker` of
`src/reliability.py`) against its natural-language specification.

Modelling conventions:
* Python `float` timestamps and delays are modelled as `ℚ` (all operations
  used by the code are exact field operations and comparisons).
* Randomness (the jitter sample of `RetryStrategy.get_delay`, the behaviour
  of a transport's `send`, transport availability as computed by
  `_select_transport`) is passed in explicitly as oracle inputs.
* Exceptions are modelled by `Except` / explicit result values; a caught
  exception is an ordinary value, mirroring the `try/except` blocks of the
  source.
-/

deriving instance DecidableEq for Except

namespace Messaging

/-- Status of a message (enum `MessageStatus` of the source). -/
inductive MessageStatus
  | PENDING
  | SENT
  | FAILED
  | RETRYING
  | EXPIRED
  deriving DecidableEq

/-- Priority levels for messages (enum `MessagePriority` of the source). -/
inductive MessagePriority
  | LOW
  | NORMAL
  | HIGH
  | CRITICAL
  deriving DecidableEq

/-- Payloads are opaque structured records; the sender never interprets them
except by handing them to the validation backend.  A concrete JSON-object-like
representation keeps everything decidable. -/
abbrev Payload := List (String × String)

/-- Envelope containing message metadata and payload (dataclass
`MessageEnvelope` of the source).  Message ids are modelled as `Nat`
(the source draws fresh `uuid4` strings; only freshness matters). -/
structure MessageEnvelope where
  message_id : Nat
  destination : String
  payload : Payload
  priority : MessagePriority
  created_at : ℚ
  expires_at : Option ℚ
  retry_count : Nat := 0
  max_retries : Nat := 3
  status : MessageStatus := .PENDING
  last_attempt : Option ℚ := none
  error_message : Option String := none
  schema_name : Option String := none
  deriving DecidableEq

/-- `MessageEnvelope.is_expired` of the source:
`self.expires_at is not None and time.time() > self.expires_at`.
The current clock value `now` stands for `time.time()`. -/
def MessageEnvelope.is_expired (e : MessageEnvelope) (now : ℚ) : Bool :=
  match e.expires_at with
  | none => false
  | some t => decide (now > t)

/-- `MessageEnvelope.can_retry` of the source. -/
def MessageEnvelope.can_retry (e : MessageEnvelope) (now : ℚ) : Bool :=
  decide (e.retry_count < e.max_retries) && !(e.is_expired now) &&
    (decide (e.status = .FAILED) || decide (e.status = .RETRYING))

/-- Exponential backoff retry strategy (class `RetryStrategy` of the source). -/
structure RetryStrategy where
  base_delay : ℚ := 1
  max_delay : ℚ := 60
  exponential_base : ℚ := 2
  jitter : Bool := true

/-- `RetryStrategy.get_delay` of the source.  The uniform random draw
`random.uniform(-jitter_amount, jitter_amount)` is modelled as
`u * jitter_amount` for an oracle input `u` (the normalised sample,
in `[-1, 1]` for a faithful run); with `jitter = false` the input `u`
is irrelevant. -/
def RetryStrategy.get_delay (s : RetryStrategy) (retry_count : Nat) (u : ℚ) : ℚ :=
  let d1 := s.base_delay * s.exponential_base ^ retry_count
  let d2 := min d1 s.max_delay
  let d3 := if s.jitter then d2 + u * (d2 * 0.25) else d2
  max 0 d3

/-- Outcome of a call to the external `jsonschema.validate` backend:
either it returns normally, raises a `ValidationError`, or raises some
other exception. -/
inductive JsonSchemaResult
  | ok
  | validationError (msg : String)
  | otherError (msg : String)

/-- Validates messages against JSON schemas (class `MessageValidator` of the
source).  The schema definitions themselves are consumed only by the external
`jsonschema` backend, so the model keeps the set of registered schema names;
the backend behaviour is an oracle parameter of `validate`. -/
structure MessageValidator where
  schemas : List String := ["game_event", "error_report", "simulation_result"]

/-- `MessageValidator.validate` of the source.  `jsonschema_available`
models the module-level `JSONSCHEMA_AVAILABLE` flag and `backend` the
behaviour of `jsonschema.validate` on the registered schema.  The source
wraps the backend call in `try/except` clauses that catch every exception,
so the model is a total function: `validate` never throws. -/
def MessageValidator.validate (jsonschema_available : Bool)
    (backend : String → Payload → JsonSchemaResult)
    (v : MessageValidator) (payload : Payload) (schema_name : String) :
    Bool × Option String :=
  if !jsonschema_available then (true, none)
  else if schema_name ∉ v.schemas then
    (false, some ("Schema \x27" ++ schema_name ++ "\x27 not found"))
  else
    match backend schema_name payload with
    | .ok => (true, none)
    | .validationError e => (false, some e)
    | .otherError e => (false, some ("Validation error: " ++ e))

end Messaging

namespace Reliability

/-- Circuit breaker states; the source stores them as the strings
"CLOSED", "OPEN", "HALF_OPEN". -/
inductive CBState
  | CLOSED
  | OPEN
  | HALF_OPEN
  deriving DecidableEq

/-- Circuit breaker pattern for fault tolerance (class `CircuitBreaker` of
`src/reliability.py`). -/
structure CircuitBreaker where
  failure_threshold : Nat := 5
  timeout : ℚ := 60
  failure_count : Nat := 0
  last_failure_time : Option ℚ := none
  state : CBState := .CLOSED
  deriving DecidableEq

/-- Behaviour of the wrapped callable on one invocation: it either returns
normally or raises. -/
inductive CallBehaviour
  | success
  | failure
  deriving DecidableEq

/-- Result observed by the caller of `CircuitBreaker.call`: the wrapped
function's result is returned, its exception is re-raised, or the
`Exception("Circuit breaker is OPEN")` is raised without invoking it. -/
inductive CallResult
  | ok
  | raised
  | rejectedOpen
  deriving DecidableEq

/-- Body of the `try` block of `CircuitBreaker.call`: invoke the wrapped
function, then `_on_success` or `_on_failure`, propagating the outcome. -/
def CircuitBreaker.invoke (cb : CircuitBreaker) (now : ℚ) (fn : CallBehaviour) :
    CircuitBreaker × CallResult :=
  match fn with
  | .success =>
      ({ cb with failure_count := 0, state := .CLOSED }, .ok)
  | .failure =>
      let fc := cb.failure_count + 1
      let cb := { cb with failure_count := fc, last_failure_time := some now }
      if fc ≥ cb.failure_threshold then
        ({ cb with state := .OPEN }, .raised)
      else
        (cb, .raised)

/-- `CircuitBreaker.call` of the source.  `now` stands for `time.time()`;
`fn` is the behaviour of the wrapped callable on this invocation.  In the
OPEN state the source reads `self.last_failure_time`, which is always set
when the state is OPEN; `getD 0` mirrors that read. -/
def CircuitBreaker.call (cb : CircuitBreaker) (now : ℚ) (fn : CallBehaviour) :
    CircuitBreaker × CallResult :=
  if cb.state = .OPEN then
    if now - cb.last_failure_time.getD 0 > cb.timeout then
      CircuitBreaker.invoke { cb with state := .HALF_OPEN } now fn
    else
      (cb, .rejectedOpen)
  else
    CircuitBreaker.invoke cb now fn

end Reliability

namespace Messaging

/-- Default strategy with jitter disabled, as used by claim C7:
`base_delay = 1`, `max_delay = 60`, `exponential_base = 2`. -/
def default_no_jitter : RetryStrategy := { jitter := false }

theorem get_delay_no_jitter_eq (n : Nat) (u : ℚ) :
    default_no_jitter.get_delay n u = min ((1 : ℚ) * 2 ^ n) 60 := by
  have h0 : (0 : ℚ) ≤ min ((1 : ℚ) * 2 ^ n) 60 := by
    refine le_min ?_ (by norm_num)
    positivity
  simp only [RetryStrategy.get_delay, default_no_jitter]
  simp only [Bool.false_eq_true, if_false]
  exact max_eq_right h0

/-- Claim C7: for every attempt count n ≥ 0, `RetryStrategy.get_delay` with
jitter disabled satisfies `get_delay n ≤ get_delay (n+1)` and
`get_delay n ≤ max_delay`, computing `min (base_delay * exponential_base ^ n,
max_delay)` under the defaults `base_delay = 1`, `max_delay = 60`,
`exponential_base = 2`. -/
theorem c7_backoff_monotone_capped (n : Nat) (u : ℚ) :
    default_no_jitter.get_delay n u ≤ default_no_jitter.get_delay (n + 1) u ∧
    default_no_jitter.get_delay n u ≤ default_no_jitter.max_delay ∧
    default_no_jitter.get_delay n u = min ((1 : ℚ) * 2 ^ n) 60 := by
  have hmax : default_no_jitter.max_delay = 60 := rfl
  refine ⟨?_, ?_, get_delay_no_jitter_eq n u⟩
  · rw [get_delay_no_jitter_eq n u, get_delay_no_jitter_eq (n + 1) u]
    refine min_le_min ?_ le_rfl
    have h2 : (1 : ℚ) ≤ 2 := one_le_two
    simpa using pow_le_pow_right₀ h2 (Nat.le_succ n)
  · rw [get_delay_no_jitter_eq n u, hmax]
    exact min_le_right _ _

/-- Claim C9: when the validation backend is available,
`MessageValidator.validate` called with a schema name that is not registered
returns failure (`ok = false`) together with a descriptive error string.
The model of `validate` is a total function (the source catches every
exception from the backend), so it never throws. -/
theorem c9_validate_unknown_schema (backend : String → Payload → JsonSchemaResult)
    (v : MessageValidator) (payload : Payload) (schema_name : String)
    (h : schema_name ∉ v.schemas) :
    MessageValidator.validate true backend v payload schema_name =
      (false, some ("Schema \x27" ++ schema_name ++ "\x27 not found")) := by
  simp [MessageValidator.validate, h]

/-- Witness for claim C9 at a concrete unregistered schema name, against the
default registered-schema set. -/
theorem c9_validate_unknown_schema_witness :
    MessageValidator.validate true (fun _ _ => .ok) {} [] "nonexistent" =
      (false, some ("Schema \x27" ++ "nonexistent" ++ "\x27 not found")) :=
  c9_validate_unknown_schema (fun _ _ => .ok) {} [] "nonexistent" (by decide)

end Messaging

namespace Messaging

/-- Result of one invocation of a transport's `send`: it returns `True`,
returns `False`, or raises an exception with the given message.  The
orchestrator treats `failure` and `exn` identically except for the
recorded `error_message`. -/
inductive TransportResult
  | success
  | failure
  | exn (msg : String)
  deriving DecidableEq

/-- Environment inputs consumed by one send attempt: the clock value,
whether `_select_transport` finds an available transport, the transport's
behaviour, and the normalised jitter sample used if a retry is scheduled. -/
structure AttemptContext where
  now : ℚ
  transport_available : Bool
  result : TransportResult
  u : ℚ := 0
  deriving DecidableEq

/-- Disposition of one call to `_attempt_send`, recorded for specification
purposes (the source returns only a `bool` and performs the corresponding
side effects). -/
inductive AttemptOutcome
  | sentOk
  | retryScheduled (delay : ℚ)
  | deadLettered
  | expiredDisposed
  | noTransport
  | unknownId
  deriving DecidableEq

/-- State of a `ReliableMessageSender`.  `store` models the Python object
heap: the current field values of every created envelope, keyed by message
id; the collections hold ids (references), mirroring
`pending_messages : Dict[str, MessageEnvelope]`,
`sent_messages : List[MessageEnvelope]`, `failed_messages :
List[MessageEnvelope]`.  `message_queues` flattens the per-priority queue
dict into (priority, id) pairs in insertion order.  `nextId` models fresh
`uuid4` generation as a counter. -/
structure SenderState where
  nextId : Nat := 0
  store : List (Nat × MessageEnvelope) := []
  pending_messages : List Nat := []
  sent_messages : List Nat := []
  failed_messages : List Nat := []
  message_queues : List (MessagePriority × Nat) := []
  deriving DecidableEq

/-- Configuration of a `ReliableMessageSender`: its retry strategy and
validator plus the external validation backend. -/
structure SenderConfig where
  retry_strategy : RetryStrategy := {}
  validator : MessageValidator := {}
  jsonschema_available : Bool := true
  backend : String → Payload → JsonSchemaResult := fun _ _ => .ok

/-- Lookup of an envelope in the heap by message id (first match). -/
def lookupStore : List (Nat × MessageEnvelope) → Nat → Option MessageEnvelope
  | [], _ => none
  | p :: l, id => if p.1 = id then some p.2 else lookupStore l id

/-- Writing updated envelope fields back to the heap models in-place
mutation of a `MessageEnvelope` object shared by reference. -/
def SenderState.setEnv (st : SenderState) (id : Nat) (e : MessageEnvelope) :
    SenderState :=
  { st with store := st.store.map (fun p => if p.1 = id then (id, e) else p) }

/-- `ReliableMessageSender._move_to_sent`: drop the id from the pending
dict if present, append to the sent history, and keep only the most
recent 1000 sent messages (`self.sent_messages[-1000:]`). -/
def SenderState.move_to_sent (st : SenderState) (id : Nat) : SenderState :=
  let st := { st with pending_messages := st.pending_messages.erase id }
  let s := st.sent_messages ++ [id]
  { st with sent_messages := if s.length > 1000 then s.drop (s.length - 1000) else s }

/-- `ReliableMessageSender._move_to_failed`: drop the id from the pending
dict if present, append to the failed list, and keep only the most
recent 500 failed messages (`self.failed_messages[-500:]`). -/
def SenderState.move_to_failed (st : SenderState) (id : Nat) : SenderState :=
  let st := { st with pending_messages := st.pending_messages.erase id }
  let f := st.failed_messages ++ [id]
  { st with failed_messages := if f.length > 500 then f.drop (f.length - 500) else f }

/-- Shared tail of the two failure branches of `_attempt_send` (transport
returned `False`, or raised with message `msg`): increment `retry_count`,
mark FAILED with the error message, then either mark RETRYING and schedule
a retry via `RetryStrategy.get_delay` (on the already incremented
`retry_count`) or move the envelope to the failed list. -/
def fail_branch (cfg : SenderConfig) (st : SenderState) (id : Nat)
    (ctx : AttemptContext) (e : MessageEnvelope) (msg : String) :
    SenderState × AttemptOutcome :=
  let e := { e with retry_count := e.retry_count + 1, status := .FAILED,
                    error_message := some msg }
  if e.can_retry ctx.now then
    (st.setEnv id { e with status := .RETRYING },
     .retryScheduled (cfg.retry_strategy.get_delay e.retry_count ctx.u))
  else
    ((st.setEnv id e).move_to_failed id, .deadLettered)

/-- `ReliableMessageSender._attempt_send`.  An expired envelope is marked
EXPIRED and moved to the failed list; when no transport is available the
source only logs a warning and returns `False`, leaving the envelope
untouched; otherwise `last_attempt` is stamped and the transport outcome
is dispatched. -/
def attempt_send (cfg : SenderConfig) (st : SenderState) (id : Nat)
    (ctx : AttemptContext) : SenderState × AttemptOutcome :=
  match lookupStore st.store id with
  | none => (st, .unknownId)
  | some e =>
    if e.is_expired ctx.now then
      ((st.setEnv id { e with status := .EXPIRED }).move_to_failed id,
       .expiredDisposed)
    else if !ctx.transport_available then
      (st, .noTransport)
    else
      let e := { e with last_attempt := some ctx.now }
      match ctx.result with
      | .success =>
          ((st.setEnv id { e with status := .SENT }).move_to_sent id, .sentOk)
      | .failure => fail_branch cfg st id ctx e "Transport send failed"
      | .exn msg => fail_branch cfg st id ctx e msg

/-- Envelope-creation and immediate-attempt tail of
`ReliableMessageSender.send_message` (runs after validation passed or was
skipped).  Note `expires_at`: the source computes
`time.time() + ttl_seconds if ttl_seconds else None`, so by Python
truthiness a `ttl_seconds` of `0` yields no deadline at all. -/
def make_envelope (destination : String) (payload : Payload)
    (priority : MessagePriority) (schema_name : Option String)
    (ttl_seconds : Option Nat) (now : ℚ) (message_id : Nat) :
    MessageEnvelope :=
  let expires_at : Option ℚ :=
    match ttl_seconds with
    | some t => if t ≠ 0 then some (now + (t : ℚ)) else none
    | none => none
  { message_id := message_id, destination := destination, payload := payload,
    priority := priority, created_at := now, expires_at := expires_at,
    schema_name := schema_name }

def send_message_core (cfg : SenderConfig) (st : SenderState)
    (destination : String) (payload : Payload) (priority : MessagePriority)
    (schema_name : Option String) (ttl_seconds : Option Nat)
    (ctx : AttemptContext) :
    SenderState × Except String (Nat × AttemptOutcome) :=
  let message_id := st.nextId
  let e : MessageEnvelope :=
    make_envelope destination payload priority schema_name ttl_seconds
      ctx.now message_id
  let st := { st with
    nextId := message_id + 1,
    store := st.store ++ [(message_id, e)],
    pending_messages := st.pending_messages ++ [message_id],
    message_queues := st.message_queues ++ [(priority, message_id)] }
  let r := attempt_send cfg st message_id ctx
  (r.1, .ok (message_id, r.2))

/-- `ReliableMessageSender.send_message`.  The source validates only when
`schema_name` is truthy (non-None and non-empty); a validation failure
raises `ValueError` before the envelope is created. -/
def send_message (cfg : SenderConfig) (st : SenderState) (destination : String)
    (payload : Payload) (priority : MessagePriority)
    (schema_name : Option String) (ttl_seconds : Option Nat)
    (ctx : AttemptContext) :
    SenderState × Except String (Nat × AttemptOutcome) :=
  match schema_name with
  | some sn =>
    if sn = "" then
      send_message_core cfg st destination payload priority schema_name
        ttl_seconds ctx
    else
      let r := cfg.validator.validate cfg.jsonschema_available cfg.backend
        payload sn
      if r.1 then
        send_message_core cfg st destination payload priority schema_name
          ttl_seconds ctx
      else
        (st, .error ("Message validation failed: " ++ r.2.getD ""))
  | none =>
      send_message_core cfg st destination payload priority schema_name
        ttl_seconds ctx

/-- Statistics reported by `ReliableMessageSender.get_statistics` (the
`pending_by_priority` and `failed_by_reason` entries of the returned dict
are derived views and are not needed by any claim). -/
structure Statistics where
  total_sent : Nat
  total_failed : Nat
  total_pending : Nat
  success_rate : ℚ
  deriving DecidableEq

/-- `ReliableMessageSender.get_statistics`. -/
def get_statistics (st : SenderState) : Statistics :=
  let total_sent := st.sent_messages.length
  let total_failed := st.failed_messages.length
  { total_sent := total_sent,
    total_failed := total_failed,
    total_pending := st.pending_messages.length,
    success_rate :=
      if total_sent + total_failed > 0 then
        (total_sent : ℚ) / ((total_sent : ℚ) + (total_failed : ℚ))
      else 1 }

/-- Top-level operations that drive a sender: a `send_message` call, or the
firing of a scheduled `_delayed_retry` task / a dispatch by the background
`process_pending_messages` loop.  Both retry paths guard on membership in
`pending_messages` before calling `_attempt_send`, exactly as the source
does, so a single event covers them. -/
inductive SenderEvent
  | send (destination : String) (payload : Payload) (priority : MessagePriority)
      (schema_name : Option String) (ttl_seconds : Option Nat)
      (ctx : AttemptContext)
  | retryFire (id : Nat) (ctx : AttemptContext)

/-- One step of the sender's evolution under an event. -/
def step (cfg : SenderConfig) (st : SenderState) : SenderEvent → SenderState
  | .send d p pr sn ttl ctx => (send_message cfg st d p pr sn ttl ctx).1
  | .retryFire id ctx =>
      if id ∈ st.pending_messages then (attempt_send cfg st id ctx).1 else st

/-- State reached from a fresh sender after a sequence of events. -/
def runTrace (cfg : SenderConfig) (evs : List SenderEvent) : SenderState :=
  evs.foldl (step cfg) {}

/-- Outcomes in which the transport's `send` was actually invoked. -/
def transport_invoked : AttemptOutcome → Bool
  | .sentOk => true
  | .retryScheduled _ => true
  | .deadLettered => true
  | _ => false

/-- One guarded retry firing for envelope `id`, threading a count of the
transport invocations performed so far. -/
def fire_step (cfg : SenderConfig) (id : Nat) :
    SenderState × Nat → AttemptContext → SenderState × Nat
  | (st, c), ctx =>
    if id ∈ st.pending_messages then
      let r := attempt_send cfg st id ctx
      (r.1, c + (if transport_invoked r.2 then 1 else 0))
    else (st, c)

/-- Repeatedly fire attempts for envelope `id`, counting how many times
the transport's `send` is invoked. -/
def runFires (cfg : SenderConfig) (id : Nat) (st : SenderState)
    (ctxs : List AttemptContext) : SenderState × Nat :=
  ctxs.foldl (fire_step cfg id) (st, 0)

/-- Claim C10: `get_statistics` never divides by zero: in every state in
which `total_sent + total_failed = 0`, the reported `success_rate` is
exactly 1. -/
theorem c10_success_rate_no_div_zero (st : SenderState)
    (h : st.sent_messages.length + st.failed_messages.length = 0) :
    (get_statistics st).success_rate = 1 := by
  simp [get_statistics, h]

/-- Witness for claim C10 at the initial sender state. -/
theorem c10_success_rate_no_div_zero_witness :
    (get_statistics {}).success_rate = 1 :=
  c10_success_rate_no_div_zero {} rfl

end Messaging

namespace Reliability

/-- Fresh breaker configured with `failure_threshold = 3` and timeout `T`,
as in claim C5. -/
def breaker3 (T : ℚ) : CircuitBreaker := { failure_threshold := 3, timeout := T }

/-- Breaker state after three consecutive failed calls at times t1, t2, t3. -/
def threeFailures (T t1 t2 t3 : ℚ) : CircuitBreaker :=
  (CircuitBreaker.call
    (CircuitBreaker.call
      (CircuitBreaker.call (breaker3 T) t1 .failure).1 t2 .failure).1
    t3 .failure).1

theorem threeFailures_eq (T t1 t2 t3 : ℚ) :
    threeFailures T t1 t2 t3 =
      { failure_threshold := 3, timeout := T, failure_count := 3,
        last_failure_time := some t3, state := .OPEN } := rfl

/-- Claim C5: for a CircuitBreaker with `failure_threshold = 3`, three
consecutive failed calls take the state from CLOSED to OPEN; a call made
before `timeout` has elapsed since the last failure raises the open-circuit
error without invoking the wrapped function (the result is `rejectedOpen`
and independent of the wrapped function's behaviour, with the breaker
unchanged); a call made after `timeout` has elapsed is permitted
(HALF_OPEN), and if it succeeds the breaker returns to CLOSED with
`failure_count = 0`. -/
theorem c5_circuit_breaker_cycle (T t1 t2 t3 t4 t5 : ℚ)
    (h4 : t4 - t3 ≤ T) (h5 : t5 - t3 > T) :
    (threeFailures T t1 t2 t3).state = .OPEN ∧
    (∀ fn, CircuitBreaker.call (threeFailures T t1 t2 t3) t4 fn =
      (threeFailures T t1 t2 t3, .rejectedOpen)) ∧
    (CircuitBreaker.call (threeFailures T t1 t2 t3) t5 .success).2 = .ok ∧
    (CircuitBreaker.call (threeFailures T t1 t2 t3) t5 .success).1.state =
      .CLOSED ∧
    (CircuitBreaker.call (threeFailures T t1 t2 t3) t5 .success).1.failure_count
      = 0 := by
  have hcb := threeFailures_eq T t1 t2 t3
  have h4' : ¬ (t4 - t3 > T) := not_lt.mpr h4
  refine ⟨by rw [hcb], ?_, ?_, ?_, ?_⟩
  · intro fn
    rw [hcb]
    simp [CircuitBreaker.call, h4']
  · rw [hcb]
    simp [CircuitBreaker.call, CircuitBreaker.invoke, h5]
  · rw [hcb]
    simp [CircuitBreaker.call, CircuitBreaker.invoke, h5]
  · rw [hcb]
    simp [CircuitBreaker.call, CircuitBreaker.invoke, h5]

/-- Witness for claim C5 at `T = 60`, failures at times 0, 1, 2, a rejected
call at time 30 and a permitted successful call at time 100. -/
theorem c5_circuit_breaker_cycle_witness :
    (threeFailures 60 0 1 2).state = .OPEN ∧
    (∀ fn, CircuitBreaker.call (threeFailures 60 0 1 2) 30 fn =
      (threeFailures 60 0 1 2, .rejectedOpen)) ∧
    (CircuitBreaker.call (threeFailures 60 0 1 2) 100 .success).2 = .ok ∧
    (CircuitBreaker.call (threeFailures 60 0 1 2) 100 .success).1.state =
      .CLOSED ∧
    (CircuitBreaker.call (threeFailures 60 0 1 2) 100 .success).1.failure_count
      = 0 :=
  c5_circuit_breaker_cycle 60 0 1 2 30 100 (by norm_num) (by norm_num)

end Reliability

namespace Messaging

/-- Default sender configuration (default retry strategy, default validator,
backend that accepts everything). -/
def cfg0 : SenderConfig := {}

/-- Envelope of the claim C1 scenario: created fresh with
`max_retries = 2`, no TTL. -/
def envC1 : MessageEnvelope :=
  { message_id := 0, destination := "svcA", payload := [],
    priority := .NORMAL, created_at := 0, expires_at := none,
    max_retries := 2 }

/-- Sender state holding just `envC1` in the pending collection.
`send_message` itself always stamps the dataclass default
`max_retries = 3` (it has no parameter for it), so the envelope with
`max_retries = 2` that the claim and the spec scenario presuppose is placed
directly into the pending collection and driven through `_attempt_send`. -/
def stC1 : SenderState :=
  { nextId := 1, store := [(0, envC1)], pending_messages := [0],
    message_queues := [(.NORMAL, 0)] }

/-- Attempt context whose transport is available and always returns
`False` from `send`. -/
def failCtx : AttemptContext :=
  { now := 1, transport_available := true, result := .failure }

theorem fire_step_not_pending (cfg : SenderConfig) (id : Nat)
    (p : SenderState × Nat) (ctx : AttemptContext)
    (h : id ∉ p.1.pending_messages) :
    fire_step cfg id p ctx = p := by
  obtain ⟨st, c⟩ := p
  simp only [fire_step]
  rw [if_neg h]

theorem runFires_succ (cfg : SenderConfig) (id : Nat) (st : SenderState)
    (n : Nat) (ctx : AttemptContext) :
    runFires cfg id st (List.replicate (n + 1) ctx) =
      fire_step cfg id (runFires cfg id st (List.replicate n ctx)) ctx := by
  rw [List.replicate_succ']
  simp [runFires, List.foldl_append]

theorem runFiresC1_stable (k : Nat) :
    runFires cfg0 0 stC1 (List.replicate (k + 2) failCtx) =
      runFires cfg0 0 stC1 (List.replicate 2 failCtx) := by
  induction k with
  | zero => rfl
  | succ k ih =>
      rw [show k + 1 + 2 = (k + 2) + 1 by omega]
      rw [runFires_succ, ih]
      exact fire_step_not_pending _ _ _ _ (by decide)

/-- Counterexample to claim C1 as stated: with a transport that always
fails and `max_retries = 2`, the envelope undergoes exactly 2 transport
invocations — `retry_count` is incremented before `can_retry` compares it
with `max_retries`, so `max_retries` bounds the total number of attempts,
not the number of retries after the first attempt.  After those 2 attempts
the pending collection is empty, so every further firing is a no-op; the
claimed total of 3 attempts never happens. -/
theorem c1_counterexample :
    (runFires cfg0 0 stC1 (List.replicate 5 failCtx)).2 = 2 ∧
    (runFires cfg0 0 stC1 (List.replicate 5 failCtx)).1.pending_messages
      = [] ∧
    (runFires cfg0 0 stC1 (List.replicate 5 failCtx)).2 ≠ 3 := by
  decide

/-- Claim C1 amended: for a ReliableMessageSender whose selected
transport's send always fails, a message created with `max_retries = 2`
undergoes exactly 2 total send attempts (the initial attempt plus 1
retry), after which the envelope is disposed to the failed/dead-letter
collection with an error reason recorded and `get_statistics` reports
`total_failed = 1`. -/
theorem c1_amended_two_attempts (k : Nat) :
    (runFires cfg0 0 stC1 (List.replicate (k + 2) failCtx)).2 = 2 ∧
    (runFires cfg0 0 stC1 (List.replicate (k + 2) failCtx)).1.failed_messages
      = [0] ∧
    (runFires cfg0 0 stC1 (List.replicate (k + 2) failCtx)).1.pending_messages
      = [] ∧
    ((lookupStore
        (runFires cfg0 0 stC1 (List.replicate (k + 2) failCtx)).1.store
        0).map MessageEnvelope.error_message)
      = some (some "Transport send failed") ∧
    (get_statistics
        (runFires cfg0 0 stC1 (List.replicate (k + 2) failCtx)).1).total_failed
      = 1 := by
  rw [runFiresC1_stable k]
  decide

/-- Witness for claim C1 (amended) at the smallest firing sequence. -/
theorem c1_amended_two_attempts_witness :
    (runFires cfg0 0 stC1 (List.replicate (0 + 2) failCtx)).2 = 2 ∧
    (runFires cfg0 0 stC1 (List.replicate (0 + 2) failCtx)).1.failed_messages
      = [0] ∧
    (runFires cfg0 0 stC1 (List.replicate (0 + 2) failCtx)).1.pending_messages
      = [] ∧
    ((lookupStore
        (runFires cfg0 0 stC1 (List.replicate (0 + 2) failCtx)).1.store
        0).map MessageEnvelope.error_message)
      = some (some "Transport send failed") ∧
    (get_statistics
        (runFires cfg0 0 stC1 (List.replicate (0 + 2) failCtx)).1).total_failed
      = 1 :=
  c1_amended_two_attempts 0

/-- Attempt context at time 0 whose transport is available and always
returns `False`. -/
def failCtx0 : AttemptContext :=
  { now := 0, transport_available := true, result := .failure }

/-- Claim C2 evaluated at its failing input (`ttl_seconds = 0`, transport
always fails): because the source computes
`expires_at = time.time() + ttl_seconds if ttl_seconds else None` and `0`
is falsy in Python, the envelope gets no deadline at all (`expires_at =
none`); the first attempt fails, the envelope becomes RETRYING — not
EXPIRED — a backoff retry is scheduled (delay 2 for the default strategy
with a zero jitter sample), and the message stays pending. -/
theorem c2_ttl_zero_behaviour :
    (send_message cfg0 {} "svcA" [] .NORMAL none (some 0) failCtx0).2 =
      .ok (0, .retryScheduled (cfg0.retry_strategy.get_delay 1 0)) ∧
    cfg0.retry_strategy.get_delay 1 0 = 2 ∧
    ((lookupStore
        (send_message cfg0 {} "svcA" [] .NORMAL none (some 0) failCtx0).1.store
        0).map MessageEnvelope.expires_at) = some none ∧
    ((lookupStore
        (send_message cfg0 {} "svcA" [] .NORMAL none (some 0) failCtx0).1.store
        0).map MessageEnvelope.status) = some .RETRYING ∧
    ((lookupStore
        (send_message cfg0 {} "svcA" [] .NORMAL none (some 0) failCtx0).1.store
        0).map MessageEnvelope.status) ≠ some .EXPIRED ∧
    0 ∈ (send_message cfg0 {} "svcA" [] .NORMAL none (some 0)
          failCtx0).1.pending_messages := by
  refine ⟨rfl, ?_, by decide, by decide, by decide, by decide⟩
  simp [cfg0, RetryStrategy.get_delay, min_def, max_def]
  norm_num

/-- Attempt context in which `_select_transport` finds no available
transport. -/
def noTransportCtx : AttemptContext :=
  { now := 0, transport_available := false, result := .failure }

/-- Counterexample to claim C4 as stated: when no transport is available,
`_attempt_send` merely logs and returns `False`; the envelope is left in
the pending collection completely untouched — `retry_count` is still 0,
status is still PENDING, no error is recorded, and no backoff retry is
scheduled (the outcome is `noTransport`, not `retryScheduled`). -/
theorem c4_counterexample :
    (send_message cfg0 {} "svcA" [] .NORMAL none none noTransportCtx).2 =
      .ok (0, .noTransport) ∧
    (lookupStore
        (send_message cfg0 {} "svcA" [] .NORMAL none none noTransportCtx).1.store
        0) =
      some { message_id := 0, destination := "svcA", payload := [],
             priority := .NORMAL, created_at := 0, expires_at := none } ∧
    0 ∈ (send_message cfg0 {} "svcA" [] .NORMAL none none
          noTransportCtx).1.pending_messages ∧
    ∀ d : ℚ, (send_message cfg0 {} "svcA" [] .NORMAL none none
          noTransportCtx).2 ≠ .ok (0, .retryScheduled d) := by
  refine ⟨by decide, by decide, by decide, ?_⟩
  intro d h
  have h0 : (send_message cfg0 {} "svcA" [] .NORMAL none none
      noTransportCtx).2 = .ok (0, .noTransport) := by decide
  rw [h0] at h
  simp at h

/-- Claim C4 amended: when a send attempt finds no available transport,
the source logs a warning and `_attempt_send` returns `False` leaving the
sender state entirely unchanged: the envelope stays in the pending
collection, its failure is not recorded (`retry_count`, `status` and
`error_message` untouched) and no backoff retry is scheduled by this
attempt; the message can only be attempted again by the background
dispatch loop. -/
theorem c4_amended_no_transport_noop (cfg : SenderConfig) (st : SenderState)
    (id : Nat) (ctx : AttemptContext) (e : MessageEnvelope)
    (hl : lookupStore st.store id = some e)
    (hexp : e.is_expired ctx.now = false)
    (hav : ctx.transport_available = false) :
    attempt_send cfg st id ctx = (st, .noTransport) := by
  simp [attempt_send, hl, hexp, hav]

/-- Envelope and one-message state used by the C4 witness. -/
def envC4 : MessageEnvelope :=
  { message_id := 0, destination := "svcA", payload := [],
    priority := .NORMAL, created_at := 0, expires_at := none }

def stC4 : SenderState :=
  { nextId := 1, store := [(0, envC4)], pending_messages := [0],
    message_queues := [(.NORMAL, 0)] }

/-- Witness for claim C4 (amended) at a concrete one-message state. -/
theorem c4_amended_no_transport_noop_witness :
    attempt_send cfg0 stC4 0 noTransportCtx = (stC4, .noTransport) :=
  c4_amended_no_transport_noop cfg0 stC4 0 noTransportCtx envC4
    (by decide) (by decide) rfl

/-- Claim C8: if `send_message` is called with a (truthy, i.e. non-empty)
schema name and the payload fails validation, the error is raised
synchronously before any envelope is created and the sender state is
returned unchanged — no envelope appears in any collection. -/
theorem c8_validation_fails_fast (cfg : SenderConfig) (st : SenderState)
    (destination : String) (payload : Payload) (priority : MessagePriority)
    (sn : String) (ttl_seconds : Option Nat) (ctx : AttemptContext)
    (hsn : sn ≠ "")
    (hval : (cfg.validator.validate cfg.jsonschema_available cfg.backend
        payload sn).1 = false) :
    send_message cfg st destination payload priority (some sn) ttl_seconds
        ctx =
      (st, .error ("Message validation failed: " ++
        (cfg.validator.validate cfg.jsonschema_available cfg.backend
          payload sn).2.getD "")) := by
  simp [send_message, hsn, hval]

/-- Configuration whose backend rejects every payload, standing for an
`error_report` payload with a missing required field. -/
def cfgReject : SenderConfig :=
  { backend := fun _ _ => .validationError "missing required field: message" }

/-- Witness for claim C8: a rejected `error_report` send leaves the fresh
sender state unchanged and surfaces the validation error. -/
theorem c8_validation_fails_fast_witness :
    send_message cfgReject {} "svcA" [] .NORMAL (some "error_report") none
        failCtx0 =
      ({}, .error ("Message validation failed: " ++
        (cfgReject.validator.validate cfgReject.jsonschema_available
          cfgReject.backend [] "error_report").2.getD "")) :=
  c8_validation_fails_fast cfgReject {} "svcA" [] .NORMAL "error_report"
    none failCtx0 (by decide) (by decide)

end Messaging

namespace Messaging

theorem lookupStore_append_left {l₁ l₂ : List (Nat × MessageEnvelope)}
    {id : Nat} {e : MessageEnvelope} (h : lookupStore l₁ id = some e) :
    lookupStore (l₁ ++ l₂) id = some e := by
  induction l₁ with
  | nil => simp [lookupStore] at h
  | cons p l ih =>
      by_cases hp : p.1 = id
      · simp only [lookupStore, if_pos hp] at h
        simp only [List.cons_append, lookupStore, if_pos hp]
        exact h
      · simp only [lookupStore, if_neg hp] at h
        simp only [List.cons_append, lookupStore, if_neg hp]
        exact ih h

theorem lookupStore_append_right {l₁ l₂ : List (Nat × MessageEnvelope)}
    {id : Nat} (h : lookupStore l₁ id = none) :
    lookupStore (l₁ ++ l₂) id = lookupStore l₂ id := by
  induction l₁ with
  | nil => simp
  | cons p l ih =>
      by_cases hp : p.1 = id
      · simp only [lookupStore, if_pos hp] at h
        exact Option.noConfusion h
      · simp only [lookupStore, if_neg hp] at h
        simp only [List.cons_append, lookupStore, if_neg hp]
        exact ih h

theorem lookupStore_append_cases {l₁ l₂ : List (Nat × MessageEnvelope)}
    {id : Nat} {e : MessageEnvelope}
    (h : lookupStore (l₁ ++ l₂) id = some e) :
    lookupStore l₁ id = some e ∨
      (lookupStore l₁ id = none ∧ lookupStore l₂ id = some e) := by
  cases hl : lookupStore l₁ id with
  | none => exact Or.inr ⟨rfl, by rwa [lookupStore_append_right hl] at h⟩
  | some e₀ =>
      left
      rwa [lookupStore_append_left hl] at h

theorem lookupStore_none_of_ne {l : List (Nat × MessageEnvelope)} {id : Nat}
    (h : ∀ p ∈ l, p.1 ≠ id) : lookupStore l id = none := by
  induction l with
  | nil => rfl
  | cons p l ih =>
      simp only [lookupStore, if_neg (h p (by simp))]
      exact ih fun q hq => h q (by simp [hq])

theorem lookupStore_map_set {l : List (Nat × MessageEnvelope)} {id : Nat}
    (e : MessageEnvelope) :
    lookupStore (l.map (fun p => if p.1 = id then (id, e) else p)) id =
      (lookupStore l id).map (fun _ => e) := by
  induction l with
  | nil => rfl
  | cons p l ih =>
      by_cases hp : p.1 = id
      · simp [lookupStore, hp]
      · simp only [List.map_cons, if_neg hp, lookupStore, ih]

theorem lookupStore_map_set_ne {l : List (Nat × MessageEnvelope)}
    {id j : Nat} (e : MessageEnvelope) (hj : j ≠ id) :
    lookupStore (l.map (fun p => if p.1 = id then (id, e) else p)) j =
      lookupStore l j := by
  induction l with
  | nil => rfl
  | cons p l ih =>
      by_cases hp : p.1 = id
      · have : p.1 ≠ j := by rw [hp]; exact fun h => hj h.symm
        simp [lookupStore, hp, Ne.symm hj, this, ih]
      · simp only [List.map_cons, if_neg hp, lookupStore, ih]

theorem keys_map_set (l : List (Nat × MessageEnvelope)) (id : Nat)
    (e : MessageEnvelope) :
    (l.map (fun p => if p.1 = id then (id, e) else p)).map Prod.fst =
      l.map Prod.fst := by
  induction l with
  | nil => rfl
  | cons p l ih =>
      by_cases hp : p.1 = id
      · simp [hp, ih]
      · simp [hp, ih]

/-- Structural invariant of every reachable sender state: collection
members are created ids, the pending dict has no duplicate keys, the three
collections are pairwise disjoint, every envelope respects its retry
ceiling, and a pending envelope still has retry budget. -/
structure Inv (st : SenderState) : Prop where
  store_keys_lt : ∀ p ∈ st.store, p.1 < st.nextId
  pending_nodup : st.pending_messages.Nodup
  pending_not_sent : ∀ id ∈ st.pending_messages, id ∉ st.sent_messages
  pending_not_failed : ∀ id ∈ st.pending_messages, id ∉ st.failed_messages
  sent_not_failed : ∀ id ∈ st.sent_messages, id ∉ st.failed_messages
  pending_lt : ∀ id ∈ st.pending_messages, id < st.nextId
  sent_lt : ∀ id ∈ st.sent_messages, id < st.nextId
  failed_lt : ∀ id ∈ st.failed_messages, id < st.nextId
  retry_le : ∀ id e, lookupStore st.store id = some e →
    e.retry_count ≤ e.max_retries
  retry_pending : ∀ id e, lookupStore st.store id = some e →
    id ∈ st.pending_messages → e.retry_count < e.max_retries

theorem Inv.init : Inv {} := by
  refine ⟨?_, ?_, ?_, ?_, ?_, ?_, ?_, ?_, ?_, ?_⟩ <;> simp [lookupStore]

end Messaging

namespace Messaging

@[simp] theorem setEnv_store (st : SenderState) (id : Nat) (e : MessageEnvelope) :
    (st.setEnv id e).store =
      st.store.map (fun p => if p.1 = id then (id, e) else p) := rfl

@[simp] theorem setEnv_pending (st : SenderState) (id : Nat) (e : MessageEnvelope) :
    (st.setEnv id e).pending_messages = st.pending_messages := rfl

@[simp] theorem setEnv_sent (st : SenderState) (id : Nat) (e : MessageEnvelope) :
    (st.setEnv id e).sent_messages = st.sent_messages := rfl

@[simp] theorem setEnv_failed (st : SenderState) (id : Nat) (e : MessageEnvelope) :
    (st.setEnv id e).failed_messages = st.failed_messages := rfl

@[simp] theorem setEnv_nextId (st : SenderState) (id : Nat) (e : MessageEnvelope) :
    (st.setEnv id e).nextId = st.nextId := rfl

@[simp] theorem move_to_sent_pending (st : SenderState) (id : Nat) :
    (st.move_to_sent id).pending_messages = st.pending_messages.erase id := rfl

@[simp] theorem move_to_sent_sent (st : SenderState) (id : Nat) :
    (st.move_to_sent id).sent_messages =
      (if (st.sent_messages ++ [id]).length > 1000
       then (st.sent_messages ++ [id]).drop
         ((st.sent_messages ++ [id]).length - 1000)
       else st.sent_messages ++ [id]) := rfl

@[simp] theorem move_to_sent_failed (st : SenderState) (id : Nat) :
    (st.move_to_sent id).failed_messages = st.failed_messages := rfl

@[simp] theorem move_to_sent_store (st : SenderState) (id : Nat) :
    (st.move_to_sent id).store = st.store := rfl

@[simp] theorem move_to_sent_nextId (st : SenderState) (id : Nat) :
    (st.move_to_sent id).nextId = st.nextId := rfl

@[simp] theorem move_to_failed_pending (st : SenderState) (id : Nat) :
    (st.move_to_failed id).pending_messages = st.pending_messages.erase id := rfl

@[simp] theorem move_to_failed_failed (st : SenderState) (id : Nat) :
    (st.move_to_failed id).failed_messages =
      (if (st.failed_messages ++ [id]).length > 500
       then (st.failed_messages ++ [id]).drop
         ((st.failed_messages ++ [id]).length - 500)
       else st.failed_messages ++ [id]) := rfl

@[simp] theorem move_to_failed_sent (st : SenderState) (id : Nat) :
    (st.move_to_failed id).sent_messages = st.sent_messages := rfl

@[simp] theorem move_to_failed_store (st : SenderState) (id : Nat) :
    (st.move_to_failed id).store = st.store := rfl

@[simp] theorem move_to_failed_nextId (st : SenderState) (id : Nat) :
    (st.move_to_failed id).nextId = st.nextId := rfl

theorem mem_trim {l : List Nat} {k j : Nat}
    (h : j ∈ (if l.length > k then l.drop (l.length - k) else l)) : j ∈ l := by
  by_cases hl : l.length > k
  · rw [if_pos hl] at h
    exact List.mem_of_mem_drop h
  · rwa [if_neg hl] at h

theorem store_keys_lt_setEnv {st : SenderState} (hI : Inv st) (id : Nat)
    (e' : MessageEnvelope) :
    ∀ p ∈ (st.setEnv id e').store, p.1 < st.nextId := by
  intro p hp
  rw [setEnv_store] at hp
  obtain ⟨q, hq, rfl⟩ := List.mem_map.mp hp
  have h1 := hI.store_keys_lt q hq
  by_cases h : q.1 = id
  · simpa [h] using h1
  · simpa [h] using h1

theorem retry_le_setEnv {st : SenderState} (hI : Inv st) {id : Nat}
    {e e' : MessageEnvelope} (hl : lookupStore st.store id = some e)
    (hle : e'.retry_count ≤ e'.max_retries) :
    ∀ j e₀, lookupStore (st.setEnv id e').store j = some e₀ →
      e₀.retry_count ≤ e₀.max_retries := by
  intro j e₀ hj
  rw [setEnv_store] at hj
  by_cases hji : j = id
  · subst hji
    rw [lookupStore_map_set, hl] at hj
    simp at hj
    rw [← hj]
    exact hle
  · rw [lookupStore_map_set_ne e' hji] at hj
    exact hI.retry_le j e₀ hj

/-- Invariant preservation for a `setEnv` that keeps the envelope pending
(the RETRYING branch). -/
theorem Inv.setEnv_keep {st : SenderState} (hI : Inv st) (id : Nat)
    (e e' : MessageEnvelope) (hl : lookupStore st.store id = some e)
    (hlt : e'.retry_count < e'.max_retries) :
    Inv (st.setEnv id e') := by
  refine ⟨store_keys_lt_setEnv hI id e', hI.pending_nodup, hI.pending_not_sent,
    hI.pending_not_failed, hI.sent_not_failed, hI.pending_lt, hI.sent_lt,
    hI.failed_lt, retry_le_setEnv hI hl (le_of_lt hlt), ?_⟩
  intro j e₀ hj _
  rw [setEnv_store] at hj
  by_cases hji : j = id
  · subst hji
    rw [lookupStore_map_set, hl] at hj
    simp at hj
    rw [← hj]
    exact hlt
  · rw [lookupStore_map_set_ne e' hji] at hj
    exact hI.retry_pending j e₀ hj (by assumption)

/-- Invariant preservation for a `setEnv` followed by `_move_to_sent`. -/
theorem Inv.setEnv_move_to_sent {st : SenderState} (hI : Inv st) (id : Nat)
    (e e' : MessageEnvelope) (hl : lookupStore st.store id = some e)
    (hp : id ∈ st.pending_messages)
    (hle : e'.retry_count ≤ e'.max_retries) :
    Inv ((st.setEnv id e').move_to_sent id) := by
  have hsent2 : ∀ j, j ∈ ((st.setEnv id e').move_to_sent id).sent_messages →
      j ∈ st.sent_messages ∨ j = id := by
    intro j hj
    rw [move_to_sent_sent, setEnv_sent] at hj
    have := mem_trim hj
    rcases List.mem_append.mp this with h | h
    · exact Or.inl h
    · exact Or.inr (by simpa using h)
  have herase : ∀ j, j ∈ st.pending_messages.erase id →
      j ≠ id ∧ j ∈ st.pending_messages := fun j hj =>
    (hI.pending_nodup.mem_erase_iff.mp hj)
  refine ⟨?_, ?_, ?_, ?_, ?_, ?_, ?_, ?_, ?_, ?_⟩
  · intro p hp'
    rw [move_to_sent_store] at hp'
    rw [move_to_sent_nextId, setEnv_nextId]
    exact store_keys_lt_setEnv hI id e' p hp'
  · rw [move_to_sent_pending, setEnv_pending]
    exact hI.pending_nodup.erase id
  · intro j hj hjs
    rw [move_to_sent_pending, setEnv_pending] at hj
    obtain ⟨hne, hjp⟩ := herase j hj
    rcases hsent2 j hjs with h | h
    · exact hI.pending_not_sent j hjp h
    · exact hne h
  · intro j hj
    rw [move_to_sent_pending, setEnv_pending] at hj
    rw [move_to_sent_failed, setEnv_failed]
    exact hI.pending_not_failed j (herase j hj).2
  · intro j hjs
    rw [move_to_sent_failed, setEnv_failed]
    rcases hsent2 j hjs with h | h
    · exact hI.sent_not_failed j h
    · subst h
      exact hI.pending_not_failed j hp
  · intro j hj
    rw [move_to_sent_pending, setEnv_pending] at hj
    rw [move_to_sent_nextId, setEnv_nextId]
    exact hI.pending_lt j (herase j hj).2
  · intro j hjs
    rw [move_to_sent_nextId, setEnv_nextId]
    rcases hsent2 j hjs with h | h
    · exact hI.sent_lt j h
    · subst h
      exact hI.pending_lt j hp
  · intro j hj
    rw [move_to_sent_failed, setEnv_failed] at hj
    rw [move_to_sent_nextId, setEnv_nextId]
    exact hI.failed_lt j hj
  · intro j e₀ hj
    rw [move_to_sent_store] at hj
    exact retry_le_setEnv hI hl hle j e₀ hj
  · intro j e₀ hj hjp
    rw [move_to_sent_store] at hj
    rw [move_to_sent_pending, setEnv_pending] at hjp
    obtain ⟨hne, hjp'⟩ := herase j hjp
    rw [setEnv_store, lookupStore_map_set_ne e' hne] at hj
    exact hI.retry_pending j e₀ hj hjp'

/-- Invariant preservation for a `setEnv` followed by `_move_to_failed`. -/
theorem Inv.setEnv_move_to_failed {st : SenderState} (hI : Inv st) (id : Nat)
    (e e' : MessageEnvelope) (hl : lookupStore st.store id = some e)
    (hp : id ∈ st.pending_messages)
    (hle : e'.retry_count ≤ e'.max_retries) :
    Inv ((st.setEnv id e').move_to_failed id) := by
  have hfail2 : ∀ j, j ∈ ((st.setEnv id e').move_to_failed id).failed_messages →
      j ∈ st.failed_messages ∨ j = id := by
    intro j hj
    rw [move_to_failed_failed, setEnv_failed] at hj
    have := mem_trim hj
    rcases List.mem_append.mp this with h | h
    · exact Or.inl h
    · exact Or.inr (by simpa using h)
  have herase : ∀ j, j ∈ st.pending_messages.erase id →
      j ≠ id ∧ j ∈ st.pending_messages := fun j hj =>
    (hI.pending_nodup.mem_erase_iff.mp hj)
  refine ⟨?_, ?_, ?_, ?_, ?_, ?_, ?_, ?_, ?_, ?_⟩
  · intro p hp'
    rw [move_to_failed_store] at hp'
    rw [move_to_failed_nextId, setEnv_nextId]
    exact store_keys_lt_setEnv hI id e' p hp'
  · rw [move_to_failed_pending, setEnv_pending]
    exact hI.pending_nodup.erase id
  · intro j hj
    rw [move_to_failed_pending, setEnv_pending] at hj
    rw [move_to_failed_sent, setEnv_sent]
    exact hI.pending_not_sent j (herase j hj).2
  · intro j hj hjf
    rw [move_to_failed_pending, setEnv_pending] at hj
    obtain ⟨hne, hjp⟩ := herase j hj
    rcases hfail2 j hjf with h | h
    · exact hI.pending_not_failed j hjp h
    · exact hne h
  · intro j hjs hjf
    rw [move_to_failed_sent, setEnv_sent] at hjs
    rcases hfail2 j hjf with h | h
    · exact hI.sent_not_failed j hjs h
    · subst h
      exact hI.pending_not_sent j hp hjs
  · intro j hj
    rw [move_to_failed_pending, setEnv_pending] at hj
    rw [move_to_failed_nextId, setEnv_nextId]
    exact hI.pending_lt j (herase j hj).2
  · intro j hjs
    rw [move_to_failed_sent, setEnv_sent] at hjs
    rw [move_to_failed_nextId, setEnv_nextId]
    exact hI.sent_lt j hjs
  · intro j hjf
    rw [move_to_failed_nextId, setEnv_nextId]
    rcases hfail2 j hjf with h | h
    · exact hI.failed_lt j h
    · subst h
      exact hI.pending_lt j hp
  · intro j e₀ hj
    rw [move_to_failed_store] at hj
    exact retry_le_setEnv hI hl hle j e₀ hj
  · intro j e₀ hj hjp
    rw [move_to_failed_store] at hj
    rw [move_to_failed_pending, setEnv_pending] at hjp
    obtain ⟨hne, hjp'⟩ := herase j hjp
    rw [setEnv_store, lookupStore_map_set_ne e' hne] at hj
    exact hI.retry_pending j e₀ hj hjp'

end Messaging

namespace Messaging

theorem can_retry_true_lt {e : MessageEnvelope} {now : ℚ}
    (h : e.can_retry now = true) : e.retry_count < e.max_retries := by
  simp only [MessageEnvelope.can_retry, Bool.and_eq_true, decide_eq_true_eq] at h
  exact h.1.1

/-- Invariant preservation for `_attempt_send` on a pending envelope. -/
theorem Inv.attempt_send_pres {st : SenderState} (hI : Inv st)
    (cfg : SenderConfig) (id : Nat) (ctx : AttemptContext)
    (hp : id ∈ st.pending_messages) :
    Inv (attempt_send cfg st id ctx).1 := by
  cases hl : lookupStore st.store id with
  | none =>
      simp only [attempt_send, hl]
      exact hI
  | some e =>
      simp only [attempt_send, hl]
      by_cases hexp : e.is_expired ctx.now
      · simp only [hexp, if_true]
        exact hI.setEnv_move_to_failed id e _ hl hp (hI.retry_le id e hl)
      · by_cases hav : ctx.transport_available
        · simp only [hexp, hav, Bool.not_true, Bool.false_eq_true, if_false]
          cases hr : ctx.result with
          | success =>
              exact hI.setEnv_move_to_sent id e _ hl hp (hI.retry_le id e hl)
          | failure =>
              simp only [fail_branch]
              split
              next h => exact hI.setEnv_keep id e _ hl (can_retry_true_lt h)
              next h =>
                exact hI.setEnv_move_to_failed id e _ hl hp
                  (Nat.succ_le_of_lt (hI.retry_pending id e hl hp))
          | exn msg =>
              simp only [fail_branch]
              split
              next h => exact hI.setEnv_keep id e _ hl (can_retry_true_lt h)
              next h =>
                exact hI.setEnv_move_to_failed id e _ hl hp
                  (Nat.succ_le_of_lt (hI.retry_pending id e hl hp))
        · simp only [hexp, hav]
          simp only [Bool.not_false, if_true, Bool.false_eq_true, if_false]
          exact hI

/-- Invariant preservation for envelope creation: a fresh envelope with
zero retries and the default ceiling is appended to the heap, the pending
dict and its priority queue, and the id counter advances. -/
theorem Inv.create {st : SenderState} (hI : Inv st) (e0 : MessageEnvelope)
    (hrc : e0.retry_count = 0) (hmax : e0.max_retries = 3)
    (pr : MessagePriority) :
    Inv { st with
          nextId := st.nextId + 1
          store := st.store ++ [(st.nextId, e0)]
          pending_messages := st.pending_messages ++ [st.nextId]
          message_queues := st.message_queues ++ [(pr, st.nextId)] } := by
  have hkeysne : ∀ q ∈ st.store, q.1 ≠ st.nextId :=
    fun q hq => Nat.ne_of_lt (hI.store_keys_lt q hq)
  have hnone : lookupStore st.store st.nextId = none :=
    lookupStore_none_of_ne hkeysne
  have hsingle : ∀ {j : Nat} {e₀ : MessageEnvelope},
      lookupStore [(st.nextId, e0)] j = some e₀ → j = st.nextId ∧ e₀ = e0 := by
    intro j e₀ hr
    simp only [lookupStore] at hr
    by_cases h : st.nextId = j
    · rw [if_pos h] at hr
      exact ⟨h.symm, (Option.some.inj hr).symm⟩
    · rw [if_neg h] at hr
      exact Option.noConfusion hr
  refine ⟨?_, ?_, ?_, ?_, ?_, ?_, ?_, ?_, ?_, ?_⟩
  · intro q hq
    rcases List.mem_append.mp hq with h | h
    · exact Nat.lt_succ_of_lt (hI.store_keys_lt q h)
    · have : q = (st.nextId, e0) := by simpa using h
      rw [this]
      exact Nat.lt_succ_self _
  · rw [List.nodup_append]
    refine ⟨hI.pending_nodup, by simp, ?_⟩
    intro a ha hb
    have : a = st.nextId := by simpa using hb
    rw [this] at ha
    exact absurd (hI.pending_lt _ ha) (lt_irrefl _)
  · intro j hj
    rcases List.mem_append.mp hj with h | h
    · exact hI.pending_not_sent j h
    · have : j = st.nextId := by simpa using h
      rw [this]
      intro hs
      exact absurd (hI.sent_lt _ hs) (lt_irrefl _)
  · intro j hj
    rcases List.mem_append.mp hj with h | h
    · exact hI.pending_not_failed j h
    · have : j = st.nextId := by simpa using h
      rw [this]
      intro hf
      exact absurd (hI.failed_lt _ hf) (lt_irrefl _)
  · exact hI.sent_not_failed
  · intro j hj
    rcases List.mem_append.mp hj with h | h
    · exact Nat.lt_succ_of_lt (hI.pending_lt j h)
    · have : j = st.nextId := by simpa using h
      rw [this]
      exact Nat.lt_succ_self _
  · intro j hj
    exact Nat.lt_succ_of_lt (hI.sent_lt j hj)
  · intro j hj
    exact Nat.lt_succ_of_lt (hI.failed_lt j hj)
  · intro j e₀ hj
    rcases lookupStore_append_cases hj with h | ⟨_, h⟩
    · exact hI.retry_le j e₀ h
    · obtain ⟨rfl, rfl⟩ := hsingle h
      rw [hrc, hmax]
      exact Nat.zero_le _
  · intro j e₀ hj hjp
    rcases lookupStore_append_cases hj with h | ⟨hn, h⟩
    · rcases List.mem_append.mp hjp with hσ | hσ
      · exact hI.retry_pending j e₀ h hσ
      · have hje : j = st.nextId := by simpa using hσ
        rw [hje, hnone] at h
        exact Option.noConfusion h
    · obtain ⟨rfl, rfl⟩ := hsingle h
      rw [hrc, hmax]
      exact Nat.zero_lt_succ _

/-- Invariant preservation for the creation-and-immediate-attempt tail of
`send_message`. -/
theorem Inv.send_core_pres {st : SenderState} (hI : Inv st)
    (cfg : SenderConfig) (d : String) (p : Payload) (pr : MessagePriority)
    (sn : Option String) (ttl : Option Nat) (ctx : AttemptContext) :
    Inv (send_message_core cfg st d p pr sn ttl ctx).1 := by
  simp only [send_message_core]
  apply Inv.attempt_send_pres
  · exact hI.create _ rfl rfl pr
  · simp

theorem send_message_none (cfg : SenderConfig) (st : SenderState)
    (d : String) (p : Payload) (pr : MessagePriority) (ttl : Option Nat)
    (ctx : AttemptContext) :
    send_message cfg st d p pr none ttl ctx =
      send_message_core cfg st d p pr none ttl ctx := rfl

theorem send_message_some (cfg : SenderConfig) (st : SenderState)
    (d : String) (p : Payload) (pr : MessagePriority) (s : String)
    (ttl : Option Nat) (ctx : AttemptContext) :
    send_message cfg st d p pr (some s) ttl ctx =
      (if s = "" then send_message_core cfg st d p pr (some s) ttl ctx
       else if (cfg.validator.validate cfg.jsonschema_available cfg.backend
           p s).1 = true then
         send_message_core cfg st d p pr (some s) ttl ctx
       else
         (st, .error ("Message validation failed: " ++
           (cfg.validator.validate cfg.jsonschema_available cfg.backend
             p s).2.getD ""))) := rfl

/-- Invariant preservation for one step of the sender. -/
theorem Inv.step_pres {st : SenderState} (hI : Inv st) (cfg : SenderConfig)
    (ev : SenderEvent) : Inv (step cfg st ev) := by
  cases ev with
  | send d p pr sn ttl ctx =>
      cases sn with
      | none =>
          simp only [step, send_message_none]
          exact hI.send_core_pres cfg d p pr none ttl ctx
      | some s =>
          simp only [step, send_message_some]
          by_cases hs : s = ""
          · rw [if_pos hs]
            exact hI.send_core_pres cfg d p pr (some s) ttl ctx
          · rw [if_neg hs]
            by_cases hv : (cfg.validator.validate cfg.jsonschema_available
                cfg.backend p s).1 = true
            · rw [if_pos hv]
              exact hI.send_core_pres cfg d p pr (some s) ttl ctx
            · rw [if_neg hv]
              exact hI
  | retryFire id ctx =>
      by_cases hp : id ∈ st.pending_messages
      · simp only [step, if_pos hp]
        exact hI.attempt_send_pres cfg id ctx hp
      · simp only [step, if_neg hp]
        exact hI

theorem Inv.foldl_pres (cfg : SenderConfig) (evs : List SenderEvent)
    {st : SenderState} (hI : Inv st) : Inv (evs.foldl (step cfg) st) := by
  induction evs generalizing st with
  | nil => exact hI
  | cons ev evs ih => exact ih (hI.step_pres cfg ev)

theorem Inv.runTrace_pres (cfg : SenderConfig) (evs : List SenderEvent) :
    Inv (runTrace cfg evs) := Inv.foldl_pres cfg evs Inv.init

/-- Claim C3 amended: at every reachable state of a ReliableMessageSender,
no created envelope appears in two of the collections {pending/retrying,
sent-history, dead-letter/failed} at the same time; membership in exactly
one is however not guaranteed, because the sent-history and failed
collections are bounded (the most recent 1000 and 500 entries) and evict
their oldest entries, after which an evicted envelope belongs to none of
the three. -/
theorem c3_amended_at_most_one_collection (cfg : SenderConfig)
    (evs : List SenderEvent) (id : Nat) :
    ¬ (id ∈ (runTrace cfg evs).pending_messages ∧
        id ∈ (runTrace cfg evs).sent_messages) ∧
    ¬ (id ∈ (runTrace cfg evs).pending_messages ∧
        id ∈ (runTrace cfg evs).failed_messages) ∧
    ¬ (id ∈ (runTrace cfg evs).sent_messages ∧
        id ∈ (runTrace cfg evs).failed_messages) := by
  have hI := Inv.runTrace_pres cfg evs
  exact ⟨fun h => hI.pending_not_sent id h.1 h.2,
         fun h => hI.pending_not_failed id h.1 h.2,
         fun h => hI.sent_not_failed id h.1 h.2⟩

/-- Witness for claim C3 (amended) at a concrete trace and id. -/
theorem c3_amended_at_most_one_collection_witness :
    ¬ (0 ∈ (runTrace cfg0 []).pending_messages ∧
        0 ∈ (runTrace cfg0 []).sent_messages) ∧
    ¬ (0 ∈ (runTrace cfg0 []).pending_messages ∧
        0 ∈ (runTrace cfg0 []).failed_messages) ∧
    ¬ (0 ∈ (runTrace cfg0 []).sent_messages ∧
        0 ∈ (runTrace cfg0 []).failed_messages) :=
  c3_amended_at_most_one_collection cfg0 [] 0

end Messaging

namespace Messaging

theorem lookupStore_mem {l : List (Nat × MessageEnvelope)} {id : Nat}
    {e : MessageEnvelope} (h : lookupStore l id = some e) : (id, e) ∈ l := by
  induction l with
  | nil => exact Option.noConfusion h
  | cons p l ih =>
      obtain ⟨a, b⟩ := p
      by_cases hp : a = id
      · subst hp
        simp only [lookupStore, if_pos rfl] at h
        obtain rfl := Option.some.inj h
        exact List.mem_cons_self _ _
      · simp only [lookupStore, if_neg hp] at h
        exact List.mem_cons_of_mem _ (ih h)

theorem fail_branch_store_cases (cfg : SenderConfig) (st : SenderState)
    (j : Nat) (ctx : AttemptContext) (e₁ : MessageEnvelope) (msg : String) :
    ∃ e₂, (fail_branch cfg st j ctx e₁ msg).1.store = (st.setEnv j e₂).store ∧
      e₁.retry_count ≤ e₂.retry_count := by
  simp only [fail_branch]
  split
  next => exact ⟨_, rfl, Nat.le_succ _⟩
  next => exact ⟨_, rfl, Nat.le_succ _⟩

/-- Store evolution of one `_attempt_send`: either the heap is untouched,
or exactly the attempted envelope is rewritten, never decreasing its
`retry_count`. -/
theorem attempt_send_store_cases (cfg : SenderConfig) (st : SenderState)
    (j : Nat) (ctx : AttemptContext) :
    (attempt_send cfg st j ctx).1.store = st.store ∨
    ∃ ej e₂, lookupStore st.store j = some ej ∧
      (attempt_send cfg st j ctx).1.store = (st.setEnv j e₂).store ∧
      ej.retry_count ≤ e₂.retry_count := by
  cases hlj : lookupStore st.store j with
  | none =>
      left
      simp only [attempt_send, hlj]
  | some ej =>
      simp only [attempt_send, hlj]
      by_cases hexp : ej.is_expired ctx.now
      · right
        refine ⟨ej, { ej with status := .EXPIRED }, rfl, ?_, le_rfl⟩
        simp only [hexp, if_true, move_to_failed_store]
      · by_cases hav : ctx.transport_available
        · simp only [hexp, hav, Bool.not_true, Bool.false_eq_true, if_false]
          cases hr : ctx.result with
          | success =>
              right
              exact ⟨ej,
                { ej with last_attempt := some ctx.now, status := .SENT },
                rfl, by simp, le_rfl⟩
          | failure =>
              right
              obtain ⟨e₂, hst, hle⟩ := fail_branch_store_cases cfg st j ctx
                { ej with last_attempt := some ctx.now } "Transport send failed"
              exact ⟨ej, e₂, rfl, hst, hle⟩
          | exn msg =>
              right
              obtain ⟨e₂, hst, hle⟩ := fail_branch_store_cases cfg st j ctx
                { ej with last_attempt := some ctx.now } msg
              exact ⟨ej, e₂, rfl, hst, hle⟩
        · left
          simp only [hexp, hav]
          simp only [Bool.not_false, if_true, Bool.false_eq_true, if_false]

theorem attempt_send_lookup (cfg : SenderConfig) {st : SenderState}
    (j : Nat) (ctx : AttemptContext) {id : Nat} {e : MessageEnvelope}
    (hl : lookupStore st.store id = some e) :
    ∃ e', lookupStore (attempt_send cfg st j ctx).1.store id = some e' ∧
      e.retry_count ≤ e'.retry_count := by
  rcases attempt_send_store_cases cfg st j ctx with h | ⟨ej, e₂, hlj, hst, hle⟩
  · exact ⟨e, by rw [h]; exact hl, le_rfl⟩
  · by_cases hij : id = j
    · subst hij
      have he : e = ej := by
        rw [hl] at hlj
        exact Option.some.inj hlj
      refine ⟨e₂, ?_, he ▸ hle⟩
      rw [hst, setEnv_store, lookupStore_map_set, hl]
      rfl
    · refine ⟨e, ?_, le_rfl⟩
      rw [hst, setEnv_store, lookupStore_map_set_ne e₂ hij]
      exact hl

theorem step_lookup_mono (cfg : SenderConfig) {st : SenderState}
    (hI : Inv st) (ev : SenderEvent) {id : Nat} {e : MessageEnvelope}
    (hl : lookupStore st.store id = some e) :
    ∃ e', lookupStore (step cfg st ev).store id = some e' ∧
      e.retry_count ≤ e'.retry_count := by
  have hlt : id < st.nextId := hI.store_keys_lt (id, e) (lookupStore_mem hl)
  cases ev with
  | retryFire j ctx =>
      by_cases hp : j ∈ st.pending_messages
      · simp only [step, if_pos hp]
        exact attempt_send_lookup cfg j ctx hl
      · simp only [step, if_neg hp]
        exact ⟨e, hl, le_rfl⟩
  | send d p pr sn ttl ctx =>
      have hcore : ∀ sn',
          ∃ e', lookupStore
              (send_message_core cfg st d p pr sn' ttl ctx).1.store id =
            some e' ∧ e.retry_count ≤ e'.retry_count := by
        intro sn'
        simp only [send_message_core]
        apply attempt_send_lookup
        exact lookupStore_append_left hl
      cases sn with
      | none =>
          simp only [step, send_message_none]
          exact hcore none
      | some s =>
          simp only [step, send_message_some]
          by_cases hs : s = ""
          · rw [if_pos hs]
            exact hcore (some s)
          · rw [if_neg hs]
            by_cases hv : (cfg.validator.validate cfg.jsonschema_available
                cfg.backend p s).1 = true
            · rw [if_pos hv]
              exact hcore (some s)
            · rw [if_neg hv]
              exact ⟨e, hl, le_rfl⟩

theorem foldl_lookup_mono (cfg : SenderConfig) (evs : List SenderEvent)
    {st : SenderState} (hI : Inv st) {id : Nat} {e : MessageEnvelope}
    (hl : lookupStore st.store id = some e) :
    ∃ e', lookupStore (evs.foldl (step cfg) st).store id = some e' ∧
      e.retry_count ≤ e'.retry_count := by
  induction evs generalizing st e with
  | nil => exact ⟨e, hl, le_rfl⟩
  | cons ev evs ih =>
      obtain ⟨e1, hl1, h1⟩ := step_lookup_mono cfg hI ev hl
      obtain ⟨e', hl', h2⟩ := ih (hI.step_pres cfg ev) hl1
      exact ⟨e', hl', le_trans h1 h2⟩

/-- Claim C6: for every envelope, across every sequence of operations
performed by the sender, `retry_count` is non-decreasing over time and
never exceeds `max_retries`: if the envelope store holds `e` for an id
after a trace and `e'` after any extension of that trace, then
`e.retry_count ≤ e'.retry_count` and `e'.retry_count ≤ e'.max_retries`. -/
theorem c6_retry_count_monotone_bounded (cfg : SenderConfig)
    (evs more : List SenderEvent) (id : Nat) (e e' : MessageEnvelope)
    (h : lookupStore (runTrace cfg evs).store id = some e)
    (h' : lookupStore (runTrace cfg (evs ++ more)).store id = some e') :
    e.retry_count ≤ e'.retry_count ∧ e'.retry_count ≤ e'.max_retries := by
  have hb := (Inv.runTrace_pres cfg (evs ++ more)).retry_le id e' h'
  have hsplit : runTrace cfg (evs ++ more) =
      more.foldl (step cfg) (runTrace cfg evs) := by
    simp [runTrace, List.foldl_append]
  obtain ⟨e'', hl'', hle⟩ :=
    foldl_lookup_mono cfg more (Inv.runTrace_pres cfg evs) h
  rw [← hsplit, h'] at hl''
  obtain rfl := Option.some.inj hl''
  exact ⟨hle, hb⟩

/-- Event of one `send_message` call at time 0 against an available
transport whose `send` always returns `False`. -/
def sendFailEvent : SenderEvent := .send "svcA" [] .NORMAL none none failCtx0

/-- Envelope 0 after the initial failed attempt of `sendFailEvent`. -/
def envW1 : MessageEnvelope :=
  { message_id := 0, destination := "svcA", payload := [],
    priority := .NORMAL, created_at := 0, expires_at := none,
    retry_count := 1, status := .RETRYING, last_attempt := some 0,
    error_message := some "Transport send failed" }

/-- Envelope 0 after one further failed retry. -/
def envW2 : MessageEnvelope := { envW1 with retry_count := 2 }

/-- Witness for claim C6 on the concrete trace: one failed send, extended
by one failed retry firing. -/
theorem c6_retry_count_monotone_bounded_witness :
    envW1.retry_count ≤ envW2.retry_count ∧
    envW2.retry_count ≤ envW2.max_retries :=
  c6_retry_count_monotone_bounded cfg0 [sendFailEvent]
    [.retryFire 0 failCtx0] 0 envW1 envW2 (by decide) (by decide)

end Messaging

namespace Messaging

/-- Attempt context for a send whose transport is available and succeeds,
at time 0. -/
def okCtx : AttemptContext :=
  { now := 0, transport_available := true, result := .success }

/-- Event of one always-successful `send_message` call. -/
def sendOkEvent : SenderEvent := .send "svcA" [] .NORMAL none none okCtx

theorem runTrace_replicate_succ (cfg : SenderConfig) (n : Nat)
    (ev : SenderEvent) :
    runTrace cfg (List.replicate (n + 1) ev) =
      step cfg (runTrace cfg (List.replicate n ev)) ev := by
  rw [List.replicate_succ']
  simp [runTrace, List.foldl_append]

theorem attempt_send_success (cfg : SenderConfig) (st : SenderState)
    (id : Nat) (ctx : AttemptContext) (e : MessageEnvelope)
    (hl : lookupStore st.store id = some e)
    (hexp : e.is_expired ctx.now = false)
    (hav : ctx.transport_available = true)
    (hr : ctx.result = .success) :
    attempt_send cfg st id ctx =
      ((st.setEnv id
          { e with last_attempt := some ctx.now, status := .SENT }).move_to_sent
        id, .sentOk) := by
  simp only [attempt_send, hl, hexp, hav, hr, Bool.not_true,
    Bool.false_eq_true, if_false]

/-- Sent-history contents after `n` always-successful sends: the most
recent 1000 of the ids `0, …, n-1`. -/
def sentAfter (n : Nat) : List Nat := List.range' (n - 1000) (min n 1000)

theorem sent_trim_eq (n : Nat) :
    (if (sentAfter n ++ [n]).length > 1000
     then (sentAfter n ++ [n]).drop ((sentAfter n ++ [n]).length - 1000)
     else sentAfter n ++ [n]) = sentAfter (n + 1) := by
  rcases le_or_lt 1000 n with h | h
  · have hconc : sentAfter n ++ [n] = List.range' (n - 1000) 1001 := by
      have h1001 : List.range' (n - 1000) 1001 =
          List.range' (n - 1000) 1000 ++ [n - 1000 + 1000] :=
        List.range'_1_concat (n - 1000) 1000
      rw [h1001, Nat.sub_add_cancel h, sentAfter, min_eq_right h]
    rw [hconc]
    have hlen : (List.range' (n - 1000) 1001).length = 1001 := by simp
    rw [if_pos (by rw [hlen]; norm_num), hlen,
      show (1001 : Nat) - 1000 = 1 from rfl,
      show List.range' (n - 1000) 1001 =
        (n - 1000) :: List.range' (n - 1000 + 1) 1000 from List.range'_succ _ _ _]
    have h1 : n + 1 - 1000 = n - 1000 + 1 := by omega
    rw [sentAfter, h1, min_eq_right (by omega)]
    rfl
  · have h0 : sentAfter n = List.range' 0 n := by
      rw [sentAfter, Nat.sub_eq_zero_of_le (by omega), min_eq_left (by omega)]
    have hconc : sentAfter n ++ [n] = List.range' 0 (n + 1) := by
      rw [h0, List.range'_1_concat, Nat.zero_add]
    rw [hconc]
    have hlen : (List.range' 0 (n + 1)).length = n + 1 := by simp
    rw [if_neg (by rw [hlen]; omega)]
    rw [sentAfter, Nat.sub_eq_zero_of_le (by omega), min_eq_left (by omega)]

theorem step_sendOk_projections (st : SenderState)
    (hnone : lookupStore st.store st.nextId = none)
    (hp : st.pending_messages = []) :
    (step cfg0 st sendOkEvent).nextId = st.nextId + 1 ∧
    (step cfg0 st sendOkEvent).pending_messages = [] ∧
    (step cfg0 st sendOkEvent).failed_messages = st.failed_messages ∧
    (step cfg0 st sendOkEvent).sent_messages =
      (if (st.sent_messages ++ [st.nextId]).length > 1000
       then (st.sent_messages ++ [st.nextId]).drop
         ((st.sent_messages ++ [st.nextId]).length - 1000)
       else st.sent_messages ++ [st.nextId]) ∧
    (step cfg0 st sendOkEvent).store.map Prod.fst =
      st.store.map Prod.fst ++ [st.nextId] := by
  have hstep : step cfg0 st sendOkEvent =
      (attempt_send cfg0
        { st with
          nextId := st.nextId + 1
          store := st.store ++
            [(st.nextId,
              make_envelope "svcA" [] .NORMAL none none okCtx.now st.nextId)]
          pending_messages := st.pending_messages ++ [st.nextId]
          message_queues := st.message_queues ++ [(.NORMAL, st.nextId)] }
        st.nextId okCtx).1 := rfl
  have hlook : lookupStore
      (st.store ++
        [(st.nextId,
          make_envelope "svcA" [] .NORMAL none none okCtx.now st.nextId)])
      st.nextId =
      some (make_envelope "svcA" [] .NORMAL none none okCtx.now st.nextId) := by
    rw [lookupStore_append_right hnone]
    simp [lookupStore]
  have hatt := attempt_send_success cfg0
    { st with
      nextId := st.nextId + 1
      store := st.store ++
        [(st.nextId,
          make_envelope "svcA" [] .NORMAL none none okCtx.now st.nextId)]
      pending_messages := st.pending_messages ++ [st.nextId]
      message_queues := st.message_queues ++ [(.NORMAL, st.nextId)] }
    st.nextId okCtx
    (make_envelope "svcA" [] .NORMAL none none okCtx.now st.nextId)
    hlook rfl rfl rfl
  rw [hstep, hatt]
  refine ⟨rfl, ?_, rfl, rfl, ?_⟩
  · rw [move_to_sent_pending, setEnv_pending]
    show (st.pending_messages ++ [st.nextId]).erase st.nextId = []
    rw [hp]
    simp
  · rw [move_to_sent_store, setEnv_store, keys_map_set]
    simp

theorem runTrace_sendOk_closed (n : Nat) :
    (runTrace cfg0 (List.replicate n sendOkEvent)).nextId = n ∧
    (runTrace cfg0 (List.replicate n sendOkEvent)).pending_messages = [] ∧
    (runTrace cfg0 (List.replicate n sendOkEvent)).failed_messages = [] ∧
    (runTrace cfg0 (List.replicate n sendOkEvent)).sent_messages =
      sentAfter n ∧
    (runTrace cfg0 (List.replicate n sendOkEvent)).store.map Prod.fst =
      List.range n := by
  induction n with
  | zero =>
      refine ⟨rfl, rfl, rfl, ?_, rfl⟩
      simp [sentAfter, runTrace]
  | succ n ih =>
      obtain ⟨h1, h2, h3, h4, h5⟩ := ih
      have hnone : lookupStore
          (runTrace cfg0 (List.replicate n sendOkEvent)).store
          (runTrace cfg0 (List.replicate n sendOkEvent)).nextId = none := by
        apply lookupStore_none_of_ne
        intro p hp'
        have hmem : p.1 ∈
            (runTrace cfg0 (List.replicate n sendOkEvent)).store.map Prod.fst :=
          List.mem_map_of_mem _ hp'
        rw [h5] at hmem
        rw [h1]
        exact Nat.ne_of_lt (List.mem_range.mp hmem)
      obtain ⟨g1, g2, g3, g4, g5⟩ := step_sendOk_projections _ hnone h2
      rw [runTrace_replicate_succ]
      refine ⟨?_, g2, ?_, ?_, ?_⟩
      · rw [g1, h1]
      · rw [g3, h3]
      · rw [g4, h4, h1]
        exact sent_trim_eq n
      · rw [g5, h5, h1, List.range_succ]

/-- Membership of an envelope id in exactly one of the three collections,
as asserted by claim C3. -/
def inExactlyOne (st : SenderState) (id : Nat) : Prop :=
  (id ∈ st.pending_messages ∧ id ∉ st.sent_messages ∧
    id ∉ st.failed_messages) ∨
  (id ∉ st.pending_messages ∧ id ∈ st.sent_messages ∧
    id ∉ st.failed_messages) ∨
  (id ∉ st.pending_messages ∧ id ∉ st.sent_messages ∧
    id ∈ st.failed_messages)

/-- Counterexample to claim C3 as stated: after 1001 always-successful
sends, the sent-history trimming (`self.sent_messages[-1000:]`) has
evicted the first envelope, so created envelope 0 is in none of the three
collections — not in exactly one of them. -/
theorem c3_counterexample :
    ¬ ∀ id < (runTrace cfg0 (List.replicate 1001 sendOkEvent)).nextId,
        inExactlyOne (runTrace cfg0 (List.replicate 1001 sendOkEvent)) id := by
  intro hall
  obtain ⟨h1, h2, h3, h4, _⟩ := runTrace_sendOk_closed 1001
  have h0 := hall 0 (by rw [h1]; norm_num)
  have hns : (0 : Nat) ∉ sentAfter 1001 := by
    intro hmem
    rw [sentAfter, show (1001 : Nat) - 1000 = 1 from rfl,
      show min (1001 : Nat) 1000 = 1000 from rfl] at hmem
    have hb := List.mem_range'_1.mp hmem
    omega
  rcases h0 with ⟨hp, _, _⟩ | ⟨_, hs, _⟩ | ⟨_, _, hf⟩
  · rw [h2] at hp
    exact List.not_mem_nil 0 hp
  · rw [h4] at hs
    exact hns hs
  · rw [h3] at hf
    exact List.not_mem_nil 0 hf

end Messaging

namespace Messaging

/-- Witness for claim C7 at attempt count 0. -/
theorem c7_backoff_monotone_capped_witness :
    default_no_jitter.get_delay 0 0 ≤ default_no_jitter.get_delay (0 + 1) 0 ∧
    default_no_jitter.get_delay 0 0 ≤ default_no_jitter.max_delay ∧
    default_no_jitter.get_delay 0 0 = min ((1 : ℚ) * 2 ^ 0) 60 :=
  c7_backoff_monotone_capped 0 0

end Messaging
